import Mathlib

/-!
Verification of the Zep vector-store / retriever documentation examples.

The repository consists of documentation notebooks for the Zep memory and
vector-store integration.  The only client-side control logic shown is the
collection-readiness polling loop `wait_for_ready`; everything else (similarity
search, MMR re-ranking, metadata filtering, retriever queries) is performed by
the external Zep service and is modelled here from the specification's
contracts.

The poller from the notebook:

    while True:
        c = await client.document.aget_collection(collection_name)
        print(
            "Embedding status: "
            f"(c.document_embedded_count)/(c.document_count) documents embedded"
        )
        time.sleep(1)
        if c.status == "ready":
            break

is embedded as a fuel-indexed runner over an abstract sequence of
collection-status responses, producing the poll index at which the loop breaks
together with the trace of observable events (status fetches, printed progress
lines, sleeps).
-/

/-- A collection-status response, as returned by `aget_collection`:
total document count, embedded document count, and a status string. -/
structure Collection where
  document_count : Nat
  document_embedded_count : Nat
  status : String
deriving DecidableEq

/-- The progress line printed on each iteration of the polling loop. -/
def progressLine (c : Collection) : String :=
  "Embedding status: " ++ toString c.document_embedded_count ++ "/" ++
    toString c.document_count ++ " documents embedded"

/-- Observable events of one run of the polling loop: a status fetch for poll
index `i`, a printed line, and a one-second sleep. -/
inductive PollEvent where
  | fetch (i : Nat)
  | printLine (s : String)
  | sleep (secs : Nat)
deriving DecidableEq

/-- The events of a single loop iteration, in source order: fetch the status,
print the progress line, sleep one second.  Only after these does the loop
test `c.status == "ready"`. -/
def iterEvents (i : Nat) (c : Collection) : List PollEvent :=
  [PollEvent.fetch i, PollEvent.printLine (progressLine c), PollEvent.sleep 1]

/-- Fuel-indexed runner for the `while True` loop of `wait_for_ready`,
starting at poll index `i`.  The `n`-th status fetch returns `resp n`.
Returns `some (n, trace)` when the loop breaks at poll `n` within `fuel`
iterations, `none` otherwise (the loop is still running). -/
def waitForReadyAux (resp : Nat → Collection) : Nat → Nat → Option (Nat × List PollEvent)
  | 0, _ => none
  | fuel + 1, i =>
    let c := resp i
    if c.status = "ready" then
      some (i, iterEvents i c)
    else
      match waitForReadyAux resp fuel (i + 1) with
      | none => none
      | some (n, tr) => some (n, iterEvents i c ++ tr)

/-- `wait_for_ready`, run against the response sequence `resp` with the given
fuel: `some (i, trace)` means the loop broke at poll `i` (having performed
polls `0 … i`), with `trace` the full event trace. -/
def wait_for_ready (resp : Nat → Collection) (fuel : Nat) : Option (Nat × List PollEvent) :=
  waitForReadyAux resp fuel 0

/-- The event trace of `n` consecutive loop iterations starting at poll
index `i`. -/
def traceFrom (resp : Nat → Collection) (i n : Nat) : List PollEvent :=
  (List.range n).flatMap (fun e => iterEvents (i + e) (resp (i + e)))

/-- The event trace of the first `n` loop iterations. -/
def pollTrace (resp : Nat → Collection) (n : Nat) : List PollEvent :=
  traceFrom resp 0 n

/-- The progress lines printed in a trace, in order. -/
def printedLines (tr : List PollEvent) : List String :=
  tr.filterMap (fun e =>
    match e with
    | PollEvent.printLine s => some s
    | _ => none)

theorem traceFrom_zero (resp : Nat → Collection) (i : Nat) :
    traceFrom resp i 0 = [] := rfl

theorem traceFrom_succ (resp : Nat → Collection) (i n : Nat) :
    traceFrom resp i (n + 1) = iterEvents i (resp i) ++ traceFrom resp (i + 1) n := by
  unfold traceFrom
  rw [List.range_succ_eq_map]
  simp only [List.flatMap_cons, Nat.add_zero, List.flatMap_map, Function.comp_def]
  congr 1
  congr 1
  funext e
  have h : i + (e + 1) = i + 1 + e := by omega
  rw [h]

theorem waitForReadyAux_ready (resp : Nat → Collection) (fuel i : Nat)
    (h : (resp i).status = "ready") :
    waitForReadyAux resp (fuel + 1) i = some (i, iterEvents i (resp i)) := by
  simp [waitForReadyAux, h]

theorem waitForReadyAux_not_ready (resp : Nat → Collection) (fuel i : Nat)
    (h : (resp i).status ≠ "ready") :
    waitForReadyAux resp (fuel + 1) i =
      (waitForReadyAux resp fuel (i + 1)).map
        (fun p => (p.1, iterEvents i (resp i) ++ p.2)) := by
  simp only [waitForReadyAux, if_neg h]
  cases waitForReadyAux resp fuel (i + 1) with
  | none => rfl
  | some p => cases p; rfl

/-- If no response from index `i` on ever reports status `"ready"`, the loop
never breaks, whatever the fuel. -/
theorem waitForReadyAux_none_of_never_ready (resp : Nat → Collection)
    (h : ∀ j, i ≤ j → (resp j).status ≠ "ready") :
    ∀ fuel, waitForReadyAux resp fuel i = none := by
  intro fuel
  induction fuel generalizing i with
  | zero => rfl
  | succ fuel ih =>
    rw [waitForReadyAux_not_ready resp fuel i (h i (Nat.le_refl i))]
    rw [ih (fun j hj => h j (by omega))]
    rfl

/-- With fuel at most `d` and no ready status among the `d` responses starting
at `i`, the runner does not return. -/
theorem waitForReadyAux_none_of_fuel_le (resp : Nat → Collection) :
    ∀ fuel d i, (∀ e, e < d → (resp (i + e)).status ≠ "ready") → fuel ≤ d →
      waitForReadyAux resp fuel i = none := by
  intro fuel
  induction fuel with
  | zero => intro d i _ _; rfl
  | succ fuel ih =>
    intro d i hnr hle
    have h0 : (resp i).status ≠ "ready" := by
      have := hnr 0 (by omega)
      simpa using this
    rw [waitForReadyAux_not_ready resp fuel i h0]
    rw [ih (d - 1) (i + 1) (fun e he => by
      have := hnr (e + 1) (by omega)
      simpa [Nat.add_assoc, Nat.add_comm 1 e] using this) (by omega)]
    rfl

/-- If the first ready response after `i` is at offset `d` and the fuel
exceeds `d`, the runner breaks exactly at poll `i + d`, with the trace of the
`d + 1` iterations it performed. -/
theorem waitForReadyAux_first_ready (resp : Nat → Collection) :
    ∀ d fuel i, (∀ e, e < d → (resp (i + e)).status ≠ "ready") →
      (resp (i + d)).status = "ready" → d < fuel →
      waitForReadyAux resp fuel i = some (i + d, traceFrom resp i (d + 1)) := by
  intro d
  induction d with
  | zero =>
    intro fuel i _ hr hf
    obtain ⟨fuel, rfl⟩ : ∃ f, fuel = f + 1 := ⟨fuel - 1, by omega⟩
    rw [waitForReadyAux_ready resp fuel i (by simpa using hr)]
    simp [traceFrom_succ, traceFrom_zero]
  | succ d ih =>
    intro fuel i hnr hr hf
    obtain ⟨fuel, rfl⟩ : ∃ f, fuel = f + 1 := ⟨fuel - 1, by omega⟩
    have h0 : (resp i).status ≠ "ready" := by simpa using hnr 0 (by omega)
    rw [waitForReadyAux_not_ready resp fuel i h0]
    rw [ih fuel (i + 1) (fun e he => by
        have := hnr (e + 1) (by omega)
        simpa [Nat.add_assoc, Nat.add_comm 1 e] using this)
      (by
        have : i + 1 + d = i + (d + 1) := by omega
        rw [this]; exact hr)
      (by omega)]
    simp only [Option.map_some']
    rw [← traceFrom_succ]
    congr 2
    omega

/-- Conversely, whenever the runner returns `some (n, tr)`, poll `n` is the
first ready poll at or after the start index, and `tr` is the trace of the
performed iterations. -/
theorem waitForReadyAux_some_inv (resp : Nat → Collection) :
    ∀ fuel i n tr, waitForReadyAux resp fuel i = some (n, tr) →
      i ≤ n ∧ (resp n).status = "ready" ∧
        (∀ j, i ≤ j → j < n → (resp j).status ≠ "ready") ∧
        tr = traceFrom resp i (n - i + 1) := by
  intro fuel
  induction fuel with
  | zero => intro i n tr h; exact Option.noConfusion h
  | succ fuel ih =>
    intro i n tr h
    by_cases hr : (resp i).status = "ready"
    · rw [waitForReadyAux_ready resp fuel i hr] at h
      simp only [Option.some.injEq, Prod.mk.injEq] at h
      obtain ⟨rfl, rfl⟩ := h
      refine ⟨Nat.le_refl i, hr, fun j h1 h2 => absurd (Nat.lt_of_le_of_lt h1 h2)
        (Nat.lt_irrefl i), ?_⟩
      simp [traceFrom_succ, traceFrom_zero]
    · rw [waitForReadyAux_not_ready resp fuel i hr] at h
      cases hrec : waitForReadyAux resp fuel (i + 1) with
      | none =>
        rw [hrec] at h
        simp only [Option.map_none'] at h
        exact Option.noConfusion h
      | some p =>
        obtain ⟨m, tr'⟩ := p
        rw [hrec] at h
        simp only [Option.map_some', Option.some.injEq, Prod.mk.injEq] at h
        obtain ⟨rfl, rfl⟩ := h
        obtain ⟨hle, hready, hfirst, rfl⟩ := ih (i + 1) m tr' hrec
        refine ⟨by omega, hready, ?_, ?_⟩
        · intro j h1 h2
          rcases Nat.eq_or_lt_of_le h1 with rfl | hlt
          · exact hr
          · exact hfirst j hlt h2
        · have hn : m - i + 1 = (m - (i + 1) + 1) + 1 := by omega
          rw [hn, traceFrom_succ resp i (m - (i + 1) + 1)]

/-- The full characterization of `wait_for_ready` on a response sequence whose
first ready status is at poll `i`: with fuel above `i` it returns poll `i` and
the trace of polls `0 … i`; with fuel at most `i` the loop is still running. -/
theorem wait_for_ready_eq_of_first_ready (resp : Nat → Collection) (i : Nat)
    (hnr : ∀ j, j < i → (resp j).status ≠ "ready")
    (hr : (resp i).status = "ready") :
    ∀ fuel, wait_for_ready resp fuel =
      if i < fuel then some (i, pollTrace resp (i + 1)) else none := by
  intro fuel
  unfold wait_for_ready pollTrace
  by_cases hf : i < fuel
  · rw [if_pos hf]
    have := waitForReadyAux_first_ready resp i fuel 0
      (fun e he => by simpa using hnr e he) (by simpa using hr) hf
    simpa using this
  · rw [if_neg hf]
    exact waitForReadyAux_none_of_fuel_le resp fuel i 0
      (fun e he => by simpa using hnr e he) (by omega)

/-- Whenever `wait_for_ready` returns, it returns the first ready poll,
together with the trace of exactly the polls it performed. -/
theorem wait_for_ready_some_inv (resp : Nat → Collection) (fuel i : Nat)
    (tr : List PollEvent) (h : wait_for_ready resp fuel = some (i, tr)) :
    (resp i).status = "ready" ∧ (∀ j, j < i → (resp j).status ≠ "ready") ∧
      tr = pollTrace resp (i + 1) := by
  obtain ⟨_, hready, hfirst, htr⟩ := waitForReadyAux_some_inv resp fuel 0 i tr h
  exact ⟨hready, fun j hj => hfirst j (Nat.zero_le j) hj, htr⟩

theorem printedLines_append (a b : List PollEvent) :
    printedLines (a ++ b) = printedLines a ++ printedLines b :=
  List.filterMap_append a b _

theorem printedLines_iterEvents (i : Nat) (c : Collection) :
    printedLines (iterEvents i c) = [progressLine c] := rfl

/-- A run of `n` iterations prints exactly one progress line per iteration,
the line of iteration `e` being built from the response fetched at poll
`i + e`. -/
theorem printedLines_traceFrom (resp : Nat → Collection) :
    ∀ n i, printedLines (traceFrom resp i n) =
      (List.range n).map (fun e => progressLine (resp (i + e))) := by
  intro n
  induction n with
  | zero => intro i; rfl
  | succ n ih =>
    intro i
    rw [traceFrom_succ, printedLines_append, printedLines_iterEvents,
      List.range_succ_eq_map]
    simp only [List.map_cons, Nat.add_zero, List.map_map, Function.comp_def, ih,
      List.singleton_append, List.cons.injEq, true_and]
    apply List.map_congr_left
    intro e _
    have h : i + 1 + e = i + (e + 1) := by omega
    rw [h]

/-- C1: if embedded counts increase monotonically, eventually equal the
document count, and the status is ready exactly when the counts are equal,
then `wait_for_ready` returns control exactly at the first poll where the
counts are equal: with fuel beyond that poll it returns that poll's index and
the trace of exactly the polls up to it, and with less fuel the loop is still
running (it never returns earlier). -/
theorem wait_for_ready_returns_at_first_equality (resp : Nat → Collection)
    (hmono : ∀ n, (resp n).document_embedded_count ≤
      (resp (n + 1)).document_embedded_count)
    (hstatus : ∀ n, ((resp n).status = "ready" ↔
      (resp n).document_embedded_count = (resp n).document_count))
    (hev : ∃ n, (resp n).document_embedded_count = (resp n).document_count) :
    ∃ i, (resp i).document_embedded_count = (resp i).document_count ∧
      (∀ j, j < i → (resp j).document_embedded_count ≠ (resp j).document_count) ∧
      ∀ fuel, wait_for_ready resp fuel =
        if i < fuel then some (i, pollTrace resp (i + 1)) else none := by
  refine ⟨Nat.find hev, Nat.find_spec hev, fun j hj => Nat.find_min hev hj, ?_⟩
  exact wait_for_ready_eq_of_first_ready resp (Nat.find hev)
    (fun j hj hready => Nat.find_min hev hj ((hstatus j).mp hready))
    ((hstatus (Nat.find hev)).mpr (Nat.find_spec hev))

/-- C2: under the store invariant that the status is ready only when the
counts are equal, `wait_for_ready` never returns at a poll whose embedded
count is below the document count — any poll it returns at has equal counts —
and after any poll with embedded count strictly below the document count the
loop goes on to issue the next status fetch. -/
theorem wait_for_ready_not_done_while_incomplete (resp : Nat → Collection)
    (hinv : ∀ n, (resp n).status = "ready" →
      (resp n).document_embedded_count = (resp n).document_count) :
    (∀ fuel i tr, wait_for_ready resp fuel = some (i, tr) →
      (resp i).document_embedded_count = (resp i).document_count) ∧
    (∀ i fuel, (resp i).document_embedded_count < (resp i).document_count →
      waitForReadyAux resp (fuel + 1) i =
        (waitForReadyAux resp fuel (i + 1)).map
          (fun p => (p.1, iterEvents i (resp i) ++ p.2))) := by
  constructor
  · intro fuel i tr h
    exact hinv i (wait_for_ready_some_inv resp fuel i tr h).1
  · intro i fuel hlt
    exact waitForReadyAux_not_ready resp fuel i
      (fun hready => absurd (hinv i hready) (Nat.ne_of_lt hlt))

/-- C5: the poller has no retry cap or timeout — it can return, at some fuel,
exactly when some poll reports a ready status, and if no poll ever reports
ready then it is still running at every fuel bound. -/
theorem wait_for_ready_no_retry_cap (resp : Nat → Collection) :
    ((∃ i, (resp i).status = "ready") ↔
      ∃ fuel r, wait_for_ready resp fuel = some r) ∧
    ((∀ i, (resp i).status ≠ "ready") → ∀ fuel, wait_for_ready resp fuel = none) := by
  constructor
  · constructor
    · intro hex
      refine ⟨Nat.find hex + 1, (Nat.find hex, pollTrace resp (Nat.find hex + 1)), ?_⟩
      rw [wait_for_ready_eq_of_first_ready resp (Nat.find hex)
        (fun j hj => Nat.find_min hex hj) (Nat.find_spec hex)]
      rw [if_pos (Nat.lt_succ_self _)]
    · rintro ⟨fuel, ⟨i, tr⟩, h⟩
      exact ⟨i, (wait_for_ready_some_inv resp fuel i tr h).1⟩
  · intro hnever fuel
    exact waitForReadyAux_none_of_never_ready resp (fun j _ => hnever j) fuel

/-- C8: a run of `wait_for_ready` that breaks at poll `i` (hence performs
`i + 1` polls) prints exactly `i + 1` progress lines, the line of poll `j`
being the one built from the counts of the response fetched at poll `j`. -/
theorem wait_for_ready_one_line_per_poll (resp : Nat → Collection)
    (fuel i : Nat) (tr : List PollEvent)
    (h : wait_for_ready resp fuel = some (i, tr)) :
    printedLines tr = (List.range (i + 1)).map (fun j => progressLine (resp j)) ∧
    (printedLines tr).length = i + 1 := by
  obtain ⟨-, -, rfl⟩ := wait_for_ready_some_inv resp fuel i tr h
  have hp := printedLines_traceFrom resp (i + 1) 0
  constructor
  · simpa using hp
  · rw [pollTrace, hp]
    simp

/-- Auxiliary hyperproperty: the runner's break poll (and hence whether it
breaks at all) is determined by the status fields of the responses alone. -/
theorem waitForReadyAux_fst_congr (resp₁ resp₂ : Nat → Collection)
    (h : ∀ i, (resp₁ i).status = (resp₂ i).status) :
    ∀ fuel i, (waitForReadyAux resp₁ fuel i).map Prod.fst =
      (waitForReadyAux resp₂ fuel i).map Prod.fst := by
  intro fuel
  induction fuel with
  | zero => intro i; rfl
  | succ fuel ih =>
    intro i
    by_cases hr : (resp₁ i).status = "ready"
    · rw [waitForReadyAux_ready resp₁ fuel i hr,
        waitForReadyAux_ready resp₂ fuel i (by rw [← h i]; exact hr)]
      rfl
    · rw [waitForReadyAux_not_ready resp₁ fuel i hr,
        waitForReadyAux_not_ready resp₂ fuel i (by rw [← h i]; exact hr)]
      rw [Option.map_map, Option.map_map]
      exact ih (i + 1)

/-- C9: two response sequences with identical per-poll status fields drive
`wait_for_ready` identically — at every fuel bound the runs break at the same
poll or are both still running — regardless of the document counts, which are
used only for the printed lines. -/
theorem wait_for_ready_depends_only_on_status (resp₁ resp₂ : Nat → Collection)
    (h : ∀ i, (resp₁ i).status = (resp₂ i).status) :
    ∀ fuel, (wait_for_ready resp₁ fuel).map Prod.fst =
      (wait_for_ready resp₂ fuel).map Prod.fst := by
  intro fuel
  exact waitForReadyAux_fst_congr resp₁ resp₂ h fuel 0

/-- C10: every returning run of `wait_for_ready`, including one whose first
response is already ready, fetches, prints the first progress line and sleeps
before the status test: its trace starts with the fetch of poll 0, the printed
line of poll 0 and a one-second sleep, so at least one line is printed and at
least one sleep happens before control returns. -/
theorem wait_for_ready_prints_and_sleeps_before_status_test
    (resp : Nat → Collection) (fuel i : Nat) (tr : List PollEvent)
    (h : wait_for_ready resp fuel = some (i, tr)) :
    ∃ rest, tr = PollEvent.fetch 0 :: PollEvent.printLine (progressLine (resp 0)) ::
        PollEvent.sleep 1 :: rest ∧
      1 ≤ (printedLines tr).length ∧ PollEvent.sleep 1 ∈ tr := by
  obtain ⟨-, -, rfl⟩ := wait_for_ready_some_inv resp fuel i tr h
  refine ⟨traceFrom resp 1 i, ?_, ?_, ?_⟩
  · rw [pollTrace, traceFrom_succ]
    rfl
  · rw [pollTrace, printedLines_traceFrom]
    simp
  · rw [pollTrace, traceFrom_succ]
    simp [iterEvents]

/-- The status responses recorded in the notebook's first polling run: polls 0
and 1 report 0 of 402 documents embedded, poll 2 reports 402 of 402 and a
ready status. -/
def respNotebook : Nat → Collection := fun n =>
  match n with
  | 0 => { document_count := 402, document_embedded_count := 0, status := "pending" }
  | 1 => { document_count := 402, document_embedded_count := 0, status := "pending" }
  | _ => { document_count := 402, document_embedded_count := 402, status := "ready" }

/-- A store whose very first response is ready but reports only 0 of 5
documents embedded. -/
def respEarlyReady : Nat → Collection :=
  fun _ => { document_count := 5, document_embedded_count := 0, status := "ready" }

/-- A store whose very first response is ready with all 5 documents
embedded. -/
def respAllEmbedded : Nat → Collection :=
  fun _ => { document_count := 5, document_embedded_count := 5, status := "ready" }

/-- C1 witness: the notebook's recorded polling run (0/402, 0/402, 402/402
ready) satisfies the hypotheses, so the poller returns exactly at its first
equality poll. -/
theorem wait_for_ready_returns_at_first_equality_witness :
    (∀ n, (respNotebook n).document_embedded_count ≤
      (respNotebook (n + 1)).document_embedded_count) ∧
    (∀ n, ((respNotebook n).status = "ready" ↔
      (respNotebook n).document_embedded_count = (respNotebook n).document_count)) ∧
    (∃ n, (respNotebook n).document_embedded_count = (respNotebook n).document_count) ∧
    (∃ i, (respNotebook i).document_embedded_count = (respNotebook i).document_count ∧
      (∀ j, j < i →
        (respNotebook j).document_embedded_count ≠ (respNotebook j).document_count) ∧
      ∀ fuel, wait_for_ready respNotebook fuel =
        if i < fuel then some (i, pollTrace respNotebook (i + 1)) else none) := by
  have hmono : ∀ n, (respNotebook n).document_embedded_count ≤
      (respNotebook (n + 1)).document_embedded_count := by
    intro n
    rcases n with _ | (_ | n)
    · decide
    · decide
    · show (402 : Nat) ≤ 402; decide
  have hstatus : ∀ n, ((respNotebook n).status = "ready" ↔
      (respNotebook n).document_embedded_count = (respNotebook n).document_count) := by
    intro n
    rcases n with _ | (_ | n)
    · decide
    · decide
    · show "ready" = "ready" ↔ (402 : Nat) = 402; decide
  have hev : ∃ n, (respNotebook n).document_embedded_count =
      (respNotebook n).document_count := ⟨2, by decide⟩
  exact ⟨hmono, hstatus, hev,
    wait_for_ready_returns_at_first_equality respNotebook hmono hstatus hev⟩

/-- C2 witness: the notebook's recorded run satisfies the store invariant, so
the poller never returns at an incomplete poll of it. -/
theorem wait_for_ready_not_done_while_incomplete_witness :
    (∀ n, (respNotebook n).status = "ready" →
      (respNotebook n).document_embedded_count = (respNotebook n).document_count) ∧
    ((∀ fuel i tr, wait_for_ready respNotebook fuel = some (i, tr) →
      (respNotebook i).document_embedded_count = (respNotebook i).document_count) ∧
    (∀ i fuel, (respNotebook i).document_embedded_count <
        (respNotebook i).document_count →
      waitForReadyAux respNotebook (fuel + 1) i =
        (waitForReadyAux respNotebook fuel (i + 1)).map
          (fun p => (p.1, iterEvents i (respNotebook i) ++ p.2)))) := by
  have hinv : ∀ n, (respNotebook n).status = "ready" →
      (respNotebook n).document_embedded_count = (respNotebook n).document_count := by
    intro n
    rcases n with _ | (_ | n)
    · decide
    · decide
    · intro _; show (402 : Nat) = 402; decide
  exact ⟨hinv, wait_for_ready_not_done_while_incomplete respNotebook hinv⟩

/-- C8 witness: the recorded notebook run breaks at poll 2 after 3 polls and
prints exactly the 3 recorded progress lines. -/
theorem wait_for_ready_one_line_per_poll_witness :
    wait_for_ready respNotebook 5 = some (2, pollTrace respNotebook 3) ∧
    (printedLines (pollTrace respNotebook 3) =
      (List.range (2 + 1)).map (fun j => progressLine (respNotebook j)) ∧
    (printedLines (pollTrace respNotebook 3)).length = 2 + 1) := by
  have h : wait_for_ready respNotebook 5 = some (2, pollTrace respNotebook 3) := by
    decide
  exact ⟨h, wait_for_ready_one_line_per_poll respNotebook 5 2 _ h⟩

/-- C9 witness: a store that reports ready at once with 0 of 5 documents
embedded and one that reports ready with 5 of 5 have identical statuses, so
the poller treats them identically — in particular it terminates on the first
even though its embedded count is strictly below its document count. -/
theorem wait_for_ready_depends_only_on_status_witness :
    (∀ i, (respEarlyReady i).status = (respAllEmbedded i).status) ∧
    (∀ fuel, (wait_for_ready respEarlyReady fuel).map Prod.fst =
      (wait_for_ready respAllEmbedded fuel).map Prod.fst) ∧
    wait_for_ready respEarlyReady 1 = some (0, iterEvents 0 (respEarlyReady 0)) ∧
    (respEarlyReady 0).document_embedded_count < (respEarlyReady 0).document_count := by
  have h : ∀ i, (respEarlyReady i).status = (respAllEmbedded i).status := fun _ => rfl
  exact ⟨h, wait_for_ready_depends_only_on_status respEarlyReady respAllEmbedded h,
    by decide, by decide⟩

/-- C10 witness: even on a store whose very first response is ready, the run
prints the progress line and sleeps before returning. -/
theorem wait_for_ready_prints_before_test_witness :
    wait_for_ready respEarlyReady 1 = some (0, iterEvents 0 (respEarlyReady 0)) ∧
    ∃ rest, iterEvents 0 (respEarlyReady 0) = PollEvent.fetch 0 ::
        PollEvent.printLine (progressLine (respEarlyReady 0)) ::
        PollEvent.sleep 1 :: rest ∧
      1 ≤ (printedLines (iterEvents 0 (respEarlyReady 0))).length ∧
      PollEvent.sleep 1 ∈ iterEvents 0 (respEarlyReady 0) := by
  have h : wait_for_ready respEarlyReady 1 =
      some (0, iterEvents 0 (respEarlyReady 0)) := by decide
  exact ⟨h, wait_for_ready_prints_and_sleeps_before_status_test respEarlyReady 1 0 _ h⟩

/-!
The query client.  The similarity search, MMR re-ranking and jsonpath
metadata filtering invoked by the notebooks run inside the external Zep
service; only their calling conventions appear in this repository.  They are
modelled below from the specification's Query Client contract.
-/

/-- A document: opaque text content plus a string-keyed metadata mapping. -/
structure Document where
  page_content : String
  metadata : List (String × String)
deriving DecidableEq

/-- A Search Result: a document together with its relevance score (higher
means more similar).  The store's floating-point score is modelled as a
rational. -/
structure SearchResult where
  doc : Document
  score : ℚ
deriving DecidableEq

/-- Descending-relevance order on Search Results. -/
def scoreGe (a b : SearchResult) : Prop := b.score ≤ a.score

instance : DecidableRel scoreGe :=
  fun a b => inferInstanceAs (Decidable (b.score ≤ a.score))

instance : IsTotal SearchResult scoreGe := ⟨fun a b => le_total b.score a.score⟩

instance : IsTrans SearchResult scoreGe :=
  ⟨fun _ _ _ h1 h2 => le_trans h2 h1⟩

/-- Modelled from the spec: the external Collection Store's similarity-mode
search behind `asimilarity_search_with_relevance_scores`, which is not part
of this repository.  Per the spec it accepts a result-count limit `k` and
"returns an ordered sequence of Search Results, ordered by descending
relevance"; `candidates` are the store's matches for the query, already
scored. -/
def asimilarity_search_with_relevance_scores
    (candidates : List SearchResult) (k : Nat) : List SearchResult :=
  (List.insertionSort scoreGe candidates).take k

/-- The value of one metadata field of a document. -/
def metadataValue (d : Document) (key : String) : Option String :=
  d.metadata.lookup key

/-- Modelled from the spec: the jsonpath predicate
`$[*] ? (@.source == v)` of the notebook's metadata filter — an equality
test on the `source` metadata field. -/
def sourceFilter (v : String) (r : SearchResult) : Bool :=
  metadataValue r.doc "source" == some v

/-- Modelled from the spec: the external store's `asearch` in similarity mode
with an optional metadata filter — the structured predicate narrows the
candidate set before the descending-relevance ranking is applied. -/
def asearch (candidates : List SearchResult) (filt : Option String) (k : Nat) :
    List SearchResult :=
  match filt with
  | none => asimilarity_search_with_relevance_scores candidates k
  | some v =>
      asimilarity_search_with_relevance_scores (candidates.filter (sourceFilter v)) k

/-- C3: a similarity-mode search over candidates whose scores are pairwise
distinct (as in the recorded solar-system query against the populated
collection) returns its results ordered by strictly descending score: every
result scores strictly above the one after it. -/
theorem similarity_search_scores_strictly_descending
    (candidates : List SearchResult) (k : Nat)
    (hdist : candidates.Pairwise (fun a b => a.score ≠ b.score)) :
    (asimilarity_search_with_relevance_scores candidates k).Chain'
      (fun a b => b.score < a.score) := by
  have hsorted : (List.insertionSort scoreGe candidates).Pairwise scoreGe :=
    List.sorted_insertionSort scoreGe candidates
  have hdist' : (List.insertionSort scoreGe candidates).Pairwise
      (fun a b => a.score ≠ b.score) :=
    ((List.perm_insertionSort scoreGe candidates).pairwise_iff
      (fun h => Ne.symm h)).mpr hdist
  have hstrict : (List.insertionSort scoreGe candidates).Pairwise
      (fun a b => b.score < a.score) := by
    rw [List.pairwise_iff_get] at hsorted hdist' ⊢
    intro i j hij
    exact lt_of_le_of_ne (hsorted i j hij) (Ne.symm (hdist' i j hij))
  exact (List.Pairwise.sublist (List.take_sublist k _) hstrict).chain'

/-- C4: a metadata-filtered similarity search whose filter is an equality
test of `metadata.source` against `vA` returns only results whose source is
`vA`, and zero results whose source is any other value `vB`. -/
theorem asearch_source_filtered (candidates : List SearchResult)
    (vA vB : String) (k : Nat) (hne : vA ≠ vB) :
    (∀ r ∈ asearch candidates (some vA) k,
      metadataValue r.doc "source" = some vA) ∧
    ((asearch candidates (some vA) k).filter
      (fun r => metadataValue r.doc "source" == some vB)).length = 0 := by
  have hmem : ∀ r ∈ asearch candidates (some vA) k,
      metadataValue r.doc "source" = some vA := by
    intro r hr
    have h1 : r ∈ List.insertionSort scoreGe (candidates.filter (sourceFilter vA)) :=
      List.take_subset k _ hr
    have h2 : r ∈ candidates.filter (sourceFilter vA) :=
      (List.mem_insertionSort scoreGe).mp h1
    have h3 : sourceFilter vA r = true := List.of_mem_filter h2
    simpa [sourceFilter] using h3
  refine ⟨hmem, ?_⟩
  rw [List.length_eq_zero, List.filter_eq_nil_iff]
  intro r hr
  rw [hmem r hr]
  simp [hne]

/-- The source URL of the Babbage book loaded first in the notebook. -/
def srcBabbage : String := "https://www.gutenberg.org/cache/epub/71292/pg71292.txt"

/-- The source URL of the Sherlock Holmes book added afterwards. -/
def srcHolmes : String := "https://www.gutenberg.org/files/48320/48320-0.txt"

/-- A search result over a document with the given content, source metadata
and relevance score. -/
def mkResult (content source : String) (score : ℚ) : SearchResult where
  doc := { page_content := content, metadata := [("source", source)] }
  score := score

/-- The three results of the notebook's recorded solar-system similarity
query, with the recorded relevance scores (contents abbreviated to their
opening words). -/
def solarResults : List SearchResult :=
  [mkResult "Tables necessary to determine the places of the planets" srcBabbage
     0.8998482592744614,
   mkResult "tabulate the motions of the four satellites of Jupiter" srcBabbage
     0.8976143854195493,
   mkResult "the scheme of notation thus applied" srcBabbage
     0.889982614061763]

/-- C3 witness: the recorded scores of the solar-system query are pairwise
distinct, so its results come back in strictly descending score order. -/
theorem similarity_search_scores_strictly_descending_witness :
    solarResults.Pairwise (fun a b => a.score ≠ b.score) ∧
    (asimilarity_search_with_relevance_scores solarResults 3).Chain'
      (fun a b => b.score < a.score) := by
  have hdist : solarResults.Pairwise (fun a b => a.score ≠ b.score) := by
    norm_num [solarResults, mkResult, List.pairwise_cons]
  exact ⟨hdist, similarity_search_scores_strictly_descending solarResults 3 hdist⟩

/-- Candidates drawn from both books, as in the notebook's astronomy query:
two results from the Babbage book and one from the Sherlock Holmes book. -/
def twoSourceResults : List SearchResult :=
  [mkResult "by that body to Mr Babbage" srcBabbage 0.9,
   mkResult "possess all knowledge which is likely to be useful" srcHolmes 0.88,
   mkResult "in all its relations; but above all, with Astronomy" srcBabbage 0.87]

/-- C4 witness: filtering the two-book candidate set to the Sherlock Holmes
source returns only results with that source and zero results carrying the
Babbage source. -/
theorem asearch_source_filtered_witness :
    srcHolmes ≠ srcBabbage ∧
    (∀ r ∈ asearch twoSourceResults (some srcHolmes) 3,
      metadataValue r.doc "source" = some srcHolmes) ∧
    ((asearch twoSourceResults (some srcHolmes) 3).filter
      (fun r => metadataValue r.doc "source" == some srcBabbage)).length = 0 := by
  have hne : srcHolmes ≠ srcBabbage := by decide
  exact ⟨hne, asearch_source_filtered twoSourceResults srcHolmes srcBabbage 3 hne⟩

/-- A collection in the external store as the query client sees it: the
results already embedded (hence searchable), those still awaiting embedding,
and the collection status. -/
structure StoreCollection where
  embedded : List SearchResult
  awaiting : List SearchResult
  status : String

/-- Modelled from the spec: the retriever's `aget_relevant_documents` against
the external store, which is not part of this repository.  A missing
collection is the only fatal condition; a collection that is not yet ready
answers normally from whatever it has embedded so far, so results "may be
empty or partial". -/
def aget_relevant_documents (col : Option StoreCollection) (k : Nat) :
    Except String (List SearchResult) :=
  match col with
  | none => Except.error "NotFoundError: collection not found"
  | some c => Except.ok (asimilarity_search_with_relevance_scores c.embedded k)

/-- C7: a search query against a collection that exists but whose status is
not yet ready returns normally — an `ok` sequence of at most `k` results
drawn from the documents embedded so far, possibly empty or partial — never
an error. -/
theorem query_not_ready_returns_normally (c : StoreCollection) (k : Nat)
    (h : c.status ≠ "ready") :
    ∃ rs, aget_relevant_documents (some c) k = Except.ok rs ∧
      rs.length ≤ k ∧ ∀ r ∈ rs, r ∈ c.embedded := by
  refine ⟨_, rfl, List.length_take_le k _, ?_⟩
  intro r hr
  exact (List.mem_insertionSort scoreGe).mp (List.take_subset k _ hr)

/-- A collection still embedding: nothing embedded yet, everything
awaiting, status pending. -/
def pendingCollection : StoreCollection :=
  { embedded := [], awaiting := twoSourceResults, status := "pending" }

/-- C7 witness: querying the pending collection answers `ok` with an empty
result list instead of raising. -/
theorem query_not_ready_returns_normally_witness :
    pendingCollection.status ≠ "ready" ∧
    ∃ rs, aget_relevant_documents (some pendingCollection) 3 = Except.ok rs ∧
      rs.length ≤ 3 ∧ ∀ r ∈ rs, r ∈ pendingCollection.embedded := by
  have h : pendingCollection.status ≠ "ready" := by decide
  exact ⟨h, query_not_ready_returns_normally pendingCollection 3 h⟩

/-- State of a connected Zep client: the non-fatal warnings emitted while
connecting. -/
structure ZepClientState where
  warnings : List String
deriving DecidableEq

/-- Modelled from the spec: the connection healthcheck of the external
`zep_python` client, which is not part of this repository.  Per the spec,
connecting to an older, version-incompatible server emits a
version-incompatibility warning non-fatally: the warning is recorded and the
connection still succeeds. -/
def connectClient (serverVersion minimumVersion : Nat) :
    Except String ZepClientState :=
  Except.ok
    { warnings :=
        if serverVersion < minimumVersion then
          ["You are using an incompatible Zep server version. Please upgrade."]
        else [] }

/-- A retriever built over a connected client, holding the client state and
the result-count limit, as in `ZepRetriever(session_id=..., top_k=...)`. -/
structure ZepRetriever where
  client : ZepClientState
  top_k : Nat

/-- Retriever construction from a connected client never fails. -/
def mkRetriever (st : ZepClientState) (k : Nat) : ZepRetriever := ⟨st, k⟩

/-- A search through a retriever queries the store with the retriever's
result-count limit. -/
def retrieverSearch (r : ZepRetriever) (col : StoreCollection) :
    Except String (List SearchResult) :=
  aget_relevant_documents (some col) r.top_k

/-- C6: connecting to an older, version-incompatible server emits the
incompatibility warning but no exception — the connection returns `ok` with
the warning recorded — and a retriever built on the connection answers every
subsequent search query normally. -/
theorem connect_incompatible_warns_nonfatally (serverVersion minimumVersion : Nat)
    (h : serverVersion < minimumVersion) :
    ∃ st, connectClient serverVersion minimumVersion = Except.ok st ∧
      st.warnings ≠ [] ∧
      ∀ k col, ∃ rs, retrieverSearch (mkRetriever st k) col = Except.ok rs := by
  refine ⟨_, rfl, ?_, ?_⟩
  · simp [if_pos h]
  · intro k col
    exact ⟨_, rfl⟩

/-- C6 witness: a client on server version 1 against minimum version 2 warns
yet connects, and its retriever still answers queries. -/
theorem connect_incompatible_warns_nonfatally_witness :
    1 < 2 ∧
    ∃ st, connectClient 1 2 = Except.ok st ∧ st.warnings ≠ [] ∧
      ∀ k col, ∃ rs, retrieverSearch (mkRetriever st k) col = Except.ok rs :=
  ⟨by decide, connect_incompatible_warns_nonfatally 1 2 (by decide)⟩
